import Mathlib

/-!
Verification of the yaml-parser repository (Go) against its specification.

The Go source (lexer.go, parser.go, yamlObj.go) is shallowly embedded below:
byte buffers are `List Nat` (one entry per byte), the lexer and parser are
pure functions with explicit state passing, and the Go loops are translated
as fuel-indexed structural recursions (every Go loop here advances the
cursor or terminates, so any fuel of at least the remaining input length
makes the translation exact; the wrappers always pass such a fuel).
-/

/-- Byte view of an ASCII string literal, used to write inputs and token
texts the way the Go code sees them (Go strings are byte strings). -/
def bytes (s : String) : List Nat := s.data.map Char.toNat

/-- Go slicing xs[a:b] (for 0 ≤ a ≤ b ≤ length, the only way the
code uses it). -/
def goSlice (xs : List Nat) (a b : Nat) : List Nat := (xs.take b).drop a

/-- unicode.IsSpace applied to rune(b) for a byte b, as the Go code does:
true exactly for tab, newline, vertical tab, form feed, carriage return,
space, next-line (0x85) and no-break space (0xA0). -/
def isSpaceByte (c : Nat) : Bool :=
  c = 9 ∨ c = 10 ∨ c = 11 ∨ c = 12 ∨ c = 13 ∨ c = 32 ∨ c = 133 ∨ c = 160

/-- ASCII decimal digit. -/
def isDigit (c : Nat) : Bool := 48 ≤ c ∧ c ≤ 57

/-- tokenType of lexer.go. -/
inductive tokenType where
  | INVALID
  | SPACE
  | COLON
  | HYPHEN
  | LEFT_SQUARE_BRACKET
  | RIGHT_SQUARE_BRACKET
  | STRING
  | FLOAT_NUMBER
  | INT_NUMBER
  | BOOLEAN
  | NULL
  | COMMENT
  | NEWLINE
  | EOF
deriving DecidableEq

/-- Token of lexer.go.  Value is a byte string; Pos is the byte offset of
the token (Int because Go computes `l.pos - 1`, which is -1 for the
end-of-input token of an empty buffer). -/
structure Token where
  value : List Nat := []
  type : tokenType
  pos : Int
deriving DecidableEq

/-- trueByte / falseByte / nullByte of lexer.go. -/
def trueByte : List Nat := bytes "true"

def falseByte : List Nat := bytes "false"

def nullByte : List Nat := bytes "null"

/-- Lexer of lexer.go: the input byte buffer and the cursor. -/
structure Lexer where
  input : List Nat
  pos : Nat
deriving DecidableEq

/-- nextChar: 0 when the cursor is at or beyond the end of the input (cursor
unchanged); otherwise the byte under the cursor, advancing the cursor.  A
0x00 byte inside the buffer is returned as 0 with the cursor advanced. -/
def Lexer.nextChar (l : Lexer) : Nat × Lexer :=
  if l.pos ≥ l.input.length then (0, l)
  else (l.input.getD l.pos 0, { l with pos := l.pos + 1 })

/-- peekChar: like nextChar but without moving the cursor. -/
def Lexer.peekChar (l : Lexer) : Nat :=
  if l.pos ≥ l.input.length then 0 else l.input.getD l.pos 0

/-- isStartOfInlineComment: the already-consumed character is whitespace and
the next unconsumed character is the comment character. -/
def Lexer.isStartOfInlineComment (l : Lexer) : Bool :=
  let currChar := l.input.getD (l.pos - 1) 0
  if ¬ isSpaceByte currChar then false
  else l.peekChar = 35

/-- isStartOfColon: the already-consumed character is a colon and the next
unconsumed character is whitespace. -/
def Lexer.isStartOfColon (l : Lexer) : Bool :=
  let currChar := l.input.getD (l.pos - 1) 0
  if currChar ≠ 58 then false
  else isSpaceByte l.peekChar

/-- The scan loop of readQuotedString: consume characters until the quote
character or 0 is consumed. -/
def readQuotedLoop : Nat → Nat → Lexer → Lexer
  | 0, _, l => l
  | fuel + 1, quoteChar, l =>
    let r := l.nextChar
    if r.fst = quoteChar ∨ r.fst = 0 then r.snd
    else readQuotedLoop fuel quoteChar r.snd

/-- readQuotedString of lexer.go, entered with the cursor just past the
opening quote.  The returned String token keeps the surrounding quotes. -/
def Lexer.readQuotedString (l : Lexer) : Token × Lexer :=
  let start := l.pos - 1
  let quoteChar := l.input.getD start 0
  let l1 := readQuotedLoop (l.input.length + 1) quoteChar l
  if l1.input.getD (l1.pos - 1) 0 ≠ quoteChar then
    ({ type := .INVALID, pos := (start : Int), value := bytes "unterminated string" }, l1)
  else
    ({ type := .STRING, value := goSlice l1.input start l1.pos, pos := (start : Int) }, l1)

/-- The scan loop of readUnquotedString: consume until 0 or the start of an
inline comment (cursor left after the consumed whitespace), or until a colon
boundary or a newline (that last character is then un-read). -/
def readUnquotedLoop : Nat → Lexer → Lexer
  | 0, l => l
  | fuel + 1, l =>
    let r := l.nextChar
    if r.fst = 0 ∨ r.snd.isStartOfInlineComment then r.snd
    else if r.snd.isStartOfColon ∨ r.fst = 10 then { r.snd with pos := r.snd.pos - 1 }
    else readUnquotedLoop fuel r.snd

/-- The trailing-trim loop of readUnquotedString, exactly as written in the
source: `for ; end >= 0 && !unicode.IsSpace(rune(l.input[end])); end-- {}`.
(The loop is entered only when input[end] IS whitespace, so its condition is
false at once and it never moves end.) -/
def trimLoop : Nat → List Nat → Int → Int
  | 0, _, e => e
  | fuel + 1, input, e =>
    if e ≥ 0 ∧ ¬ isSpaceByte (input.getD e.toNat 0) then trimLoop fuel input (e - 1)
    else e

/-- readUnquotedString of lexer.go, entered with the cursor just past the
first character of the token. -/
def Lexer.readUnquotedString (l : Lexer) : Token × Lexer :=
  let start := l.pos - 1
  let l1 := readUnquotedLoop (l.input.length + 1) l
  let e := l1.pos - 1
  if ¬ isSpaceByte (l1.input.getD e 0) then
    ({ type := .STRING, pos := (start : Int), value := goSlice l1.input start (e + 1) }, l1)
  else
    let e2 := trimLoop (e + 2) l1.input (e : Int)
    ({ type := .STRING, pos := (start : Int), value := goSlice l1.input start (e2 + 1).toNat }, l1)

/-- The scan loop of readNumber: peek-driven, records a float marker when a
dot is seen, stops before a 0, a newline or an inline comment start. -/
def readNumberLoop : Nat → tokenType → Lexer → tokenType × Lexer
  | 0, numType, l => (numType, l)
  | fuel + 1, numType, l =>
    let ch := l.peekChar
    let numType1 := if ch = 46 then tokenType.FLOAT_NUMBER else numType
    if ch = 0 ∨ ch = 10 ∨ l.isStartOfInlineComment then (numType1, l)
    else readNumberLoop fuel numType1 (l.nextChar).snd

/-- The shared peek-driven scan loop of readBoolean: stop before a 0, a
newline or an inline comment start. -/
def readScanLoop : Nat → Lexer → Lexer
  | 0, l => l
  | fuel + 1, l =>
    let ch := l.peekChar
    if ch = 0 ∨ ch = 10 ∨ l.isStartOfInlineComment then l
    else readScanLoop fuel (l.nextChar).snd

/-- The scan loop of readNull: like readScanLoop but also stopping before a
colon boundary. -/
def readNullLoop : Nat → Lexer → Lexer
  | 0, l => l
  | fuel + 1, l =>
    let ch := l.peekChar
    if ch = 0 ∨ ch = 10 ∨ l.isStartOfInlineComment ∨ l.isStartOfColon then l
    else readNullLoop fuel (l.nextChar).snd

/-- The scan loop of readComment: stop before a 0 or a newline. -/
def readCommentLoop : Nat → Lexer → Lexer
  | 0, l => l
  | fuel + 1, l =>
    let ch := l.peekChar
    if ch = 0 ∨ ch = 10 then l
    else readCommentLoop fuel (l.nextChar).snd

/-- Modelled from strconv.ParseFloat, validity only, restricted to the
decimal grammar [sign] digits [. digits] [(e|E) [sign] digits] with at least
one mantissa digit and nothing trailing.  Go additionally accepts Inf/NaN
words, hexadecimal floats and digit-group underscores; readNumber never
produces those shapes on the inputs considered here, so they are not
modelled. -/
def takeDigits : List Nat → Nat × List Nat
  | [] => (0, [])
  | c :: rest =>
    if isDigit c then
      let r := takeDigits rest
      (r.fst + 1, r.snd)
    else (0, c :: rest)

/-- Validity of a byte string for strconv.ParseFloat (see takeDigits). -/
def goParseFloatOk (s : List Nat) : Bool :=
  let s1 := match s with
    | c :: rest => if c = 43 ∨ c = 45 then rest else c :: rest
    | [] => []
  let m1 := takeDigits s1
  let m2 := match m1.snd with
    | 46 :: rest => takeDigits rest
    | r => (0, r)
  if m1.fst + m2.fst = 0 then false
  else match m2.snd with
    | [] => true
    | e :: rest =>
      if e = 101 ∨ e = 69 then
        let rest1 := match rest with
          | c :: r => if c = 43 ∨ c = 45 then r else c :: r
          | [] => []
        let m3 := takeDigits rest1
        if m3.fst ≥ 1 ∧ m3.snd = [] then true else false
      else false

/-- Modelled from strconv.Atoi on a 64-bit platform: optional sign, one or
more decimal digits, nothing else, and the value within the int64 range. -/
def goAtoi (s : List Nat) : Option Int :=
  let p : Bool × List Nat := match s with
    | 43 :: rest => (false, rest)
    | 45 :: rest => (true, rest)
    | r => (false, r)
  let ds := p.snd
  if ds.isEmpty || ds.any (fun c => ! isDigit c) then none
  else
    let n : Nat := ds.foldl (fun acc c => acc * 10 + (c - 48)) 0
    let v : Int := if p.fst then -(n : Int) else (n : Int)
    if v < -(2 ^ 63) ∨ v > 2 ^ 63 - 1 then none else some v

/-- Modelled from strconv.ParseBool: the accepted spellings and their
values. -/
def goParseBool (s : List Nat) : Option Bool :=
  if s = bytes "1" ∨ s = bytes "t" ∨ s = bytes "T" ∨ s = bytes "true" ∨
      s = bytes "TRUE" ∨ s = bytes "True" then some true
  else if s = bytes "0" ∨ s = bytes "f" ∨ s = bytes "F" ∨ s = bytes "false" ∨
      s = bytes "FALSE" ∨ s = bytes "False" then some false
  else none

/-- readNumber of lexer.go: scan, then validate via ParseFloat; on failure
rewind to just past the first character and re-lex as an unquoted string. -/
def Lexer.readNumber (l : Lexer) : Token × Lexer :=
  let start := l.pos - 1
  let r := readNumberLoop (l.input.length + 1) .INT_NUMBER l
  let l1 := r.snd
  let numStr := goSlice l1.input start l1.pos
  if goParseFloatOk numStr = false then
    Lexer.readUnquotedString { l1 with pos := start + 1 }
  else ({ type := r.fst, value := numStr, pos := (start : Int) }, l1)

/-- readBoolean of lexer.go: scan, compare to true/false, else rewind and
re-lex as an unquoted string. -/
def Lexer.readBoolean (l : Lexer) : Token × Lexer :=
  let start := l.pos - 1
  let l1 := readScanLoop (l.input.length + 1) l
  let boolByte := goSlice l1.input start l1.pos
  if ¬ (boolByte = trueByte) ∧ ¬ (boolByte = falseByte) then
    Lexer.readUnquotedString { l1 with pos := start + 1 }
  else ({ type := .BOOLEAN, value := boolByte, pos := (start : Int) }, l1)

/-- readNull of lexer.go: scan, compare to null, else rewind and re-lex as
an unquoted string. -/
def Lexer.readNull (l : Lexer) : Token × Lexer :=
  let start := l.pos - 1
  let l1 := readNullLoop (l.input.length + 1) l
  let found := goSlice l1.input start l1.pos
  if ¬ (found = nullByte) then
    Lexer.readUnquotedString { l1 with pos := start + 1 }
  else ({ type := .NULL, value := found, pos := (start : Int) }, l1)

/-- readComment of lexer.go: move the cursor to the end of the line; the
token carries no text. -/
def Lexer.readComment (l : Lexer) : Token × Lexer :=
  let start := l.pos - 1
  let l1 := readCommentLoop (l.input.length + 1) l
  ({ type := .COMMENT, pos := (start : Int) }, l1)

/-- NextToken of lexer.go: consume one character and dispatch on it.  (The
Go switch cases are disjoint single characters, so the if-chain below is the
same dispatch.) -/
def Lexer.NextToken (l : Lexer) : Token × Lexer :=
  let r := l.nextChar
  let currentChar := r.fst
  let l1 := r.snd
  if currentChar = 39 ∨ currentChar = 34 then l1.readQuotedString
  else if currentChar = 58 then ({ type := .COLON, pos := (l1.pos : Int) - 1 }, l1)
  else if currentChar = 91 then
    ({ type := .LEFT_SQUARE_BRACKET, pos := (l1.pos : Int) - 1 }, l1)
  else if currentChar = 93 then
    ({ type := .RIGHT_SQUARE_BRACKET, pos := (l1.pos : Int) - 1 }, l1)
  else if currentChar = 45 then ({ type := .HYPHEN, pos := (l1.pos : Int) - 1 }, l1)
  else if currentChar = 35 then l1.readComment
  else if currentChar = 116 ∨ currentChar = 102 then l1.readBoolean
  else if currentChar = 110 then l1.readNull
  else if (48 ≤ currentChar ∧ currentChar ≤ 57) ∨ currentChar = 46 then l1.readNumber
  else if currentChar = 10 then ({ type := .NEWLINE, pos := (l1.pos : Int) - 1 }, l1)
  else if currentChar = 9 then
    ({ type := .INVALID, pos := (l1.pos : Int) - 1,
       value := bytes "tabs are not valid within yaml files" }, l1)
  else if currentChar = 0 then ({ type := .EOF, pos := (l1.pos : Int) - 1 }, l1)
  else if isSpaceByte currentChar then ({ type := .SPACE, pos := (l1.pos : Int) }, l1)
  else l1.readUnquotedString

/-- yamlVal of parser.go / yamlObj.go, closed up into one inductive: the
scalar kinds, arrays, and YAML objects (an object is its ordered pair list
together with its seen-key set; pairs are (Key, Value) with Value an
`Option` because Go's nil interface value is a legal Value — the parser
produces nil for null scalars, bare newlines and closed blocks).  The
float variant records the token text (the Go code stores the float64
strconv.ParseFloat returns from exactly that text; no claim below inspects
a float value). -/
inductive yamlVal where
  | str (s : List Nat)
  | float (text : List Nat)
  | int (n : Int)
  | bool (b : Bool)
  | arr (elems : List (Option yamlVal))
  | obj (pairs : List (List Nat × Option yamlVal)) (keys : List (List Nat))

/-- YAMLObj of yamlObj.go: the ordered pairs and the duplicate-detection
key set (Go uses map[string]struct RBRACE-LBRACE; the set is modelled as the
insertion-ordered list of keys, with membership as the lookup). -/
structure YAMLObj where
  pairs : List (List Nat × Option yamlVal)
  keys : List (List Nat)

/-- The implicit Go conversion of a YAMLObj to its yamlVal interface
value. -/
def YAMLObj.toVal (o : YAMLObj) : yamlVal := .obj o.pairs o.keys

/-- The duplicate-key message fmt.Errorf("%w '%s'", ErrDuplicateKey, key)
produces: duplicate key, a space, and the key in single quotes (byte 39). -/
def dupKeyMsg (key : List Nat) : List Nat :=
  bytes "duplicate key " ++ [39] ++ key ++ [39]

/-- append of yamlObj.go: reject a key already in the key set, otherwise
record the key and append the pair. -/
def YAMLObj.append (o : YAMLObj) (key : List Nat) (value : Option yamlVal) :
    Except (List Nat) YAMLObj :=
  if key ∈ o.keys then .error (dupKeyMsg key)
  else .ok { pairs := o.pairs ++ [(key, value)], keys := o.keys ++ [key] }

/-- parseError of parser.go: a message and the byte offset it was raised
at. -/
structure parseError where
  message : List Nat
  pos : Int
deriving DecidableEq

/-- Parser of parser.go.  prevToken is the one-token pushback slot; it is
only ever written by peekToken, which no code path calls, so it stays
none. -/
structure Parser where
  lexer : Lexer
  currToken : Token
  prevToken : Option Token := none
  currentIndentation : Nat := 0

/-- NewParser of parser.go: wrap a fresh lexer and pull the first token. -/
def NewParser (input : List Nat) : Parser :=
  let lex : Lexer := { input := input, pos := 0 }
  let r := lex.NextToken
  { lexer := r.snd, currToken := r.fst }

/-- NextToken of parser.go: take the pushback token if present (Go does not
clear it), otherwise pull from the lexer. -/
def Parser.NextToken (p : Parser) : Parser :=
  match p.prevToken with
  | some t => { p with currToken := t }
  | none =>
    let r := p.lexer.NextToken
    { p with currToken := r.fst, lexer := r.snd }

/-- getPos of parser.go. -/
def Parser.getPos (p : Parser) : Int := p.currToken.pos

/-- The message of expect(COLON, ...) in Parse (contains single quotes,
written as byte 39). -/
def msgExpectColon : List Nat :=
  bytes "expected " ++ [39, 58, 39] ++ bytes " after key declaration"

/-- The separator message of Parse (a quoted space, bytes 39 32 39). -/
def msgExpectSeparator : List Nat :=
  bytes "Expected " ++ [39, 32, 39] ++ bytes " after seperator"

/-- The space-counting loop at the head of handleSpace: advance while the
current token is SPACE, counting.  Terminates because every lexer call
advances the cursor until end of input, where it yields EOF; the callers
pass fuel covering the whole remaining input. -/
def countSpaces : Nat → Nat → Parser → Nat × Parser
  | 0, spaceCount, p => (spaceCount, p)
  | fuel + 1, spaceCount, p =>
    if p.currToken.type = .SPACE then countSpaces fuel (spaceCount + 1) p.NextToken
    else (spaceCount, p)

/-- Error used only when the fuel of the translation runs out; the fuel
chosen by parseInput is never exhausted (the concrete evaluations below
would otherwise produce it). -/
def fuelError : parseError := { message := bytes "translation fuel exhausted", pos := 0 }

mutual

/-- Parse of parser.go: fresh document, EmptyInput check, then the key/value
loop (ParseLoop).  The unconditional debug printing of the source is pure
side effect and has no translation. -/
def Parse : Nat → Parser → (Except parseError YAMLObj) × Parser
  | 0, p => (.error fuelError, p)
  | fuel + 1, p =>
    if p.currToken.type = .EOF then
      (.error { message := bytes "empty files are not valid yaml", pos := p.getPos }, p)
    else ParseLoop fuel p { pairs := [], keys := [] }

/-- The `for p.currToken.Type != EOF` loop body of Parse: key, colon,
separator, value, append, line end, repeat. -/
def ParseLoop : Nat → Parser → YAMLObj → (Except parseError YAMLObj) × Parser
  | 0, p, _ => (.error fuelError, p)
  | fuel + 1, p, obj =>
    if p.currToken.type = .EOF then (.ok obj, p)
    else if p.currToken.type ≠ .STRING then
      (.error { message := bytes "Expected string for key", pos := p.getPos }, p)
    else
      let key := p.currToken.value
      let p1 := p.NextToken
      if p1.currToken.type ≠ .COLON then
        (.error { message := msgExpectColon, pos := p1.getPos }, p1)
      else
        let p2 := p1.NextToken
        if p2.currToken.type ≠ .SPACE ∧ p2.currToken.type ≠ .NEWLINE then
          (.error { message := msgExpectSeparator, pos := p2.getPos }, p2)
        else
          let p3 := p2.NextToken
          match parseValue fuel p3 with
          | (.error e, p4) => (.error e, p4)
          | (.ok val, p4) =>
            match obj.append key val with
            | .error msg => (.error { message := msg, pos := p4.getPos }, p4)
            | .ok obj1 =>
              let p5 := p4.NextToken
              if p5.currToken.type ≠ .NEWLINE ∧ p5.currToken.type ≠ .EOF then
                (.error { message := bytes "Expected new line after parsing values",
                          pos := p5.getPos }, p5)
              else ParseLoop fuel p5.NextToken obj1

/-- parseValue of parser.go: dispatch on the current token kind. -/
def parseValue : Nat → Parser → (Except parseError (Option yamlVal)) × Parser
  | 0, p => (.error fuelError, p)
  | fuel + 1, p =>
    match p.currToken.type with
    | .STRING => (.ok (some (.str p.currToken.value)), p)
    | .INT_NUMBER =>
      match goAtoi p.currToken.value with
      | none => (.error { message := bytes "expected a number", pos := p.getPos }, p)
      | some num => (.ok (some (.int num)), p)
    | .FLOAT_NUMBER =>
      if goParseFloatOk p.currToken.value then (.ok (some (.float p.currToken.value)), p)
      else (.error { message := bytes "Expected a number", pos := p.getPos }, p)
    | .BOOLEAN =>
      match goParseBool p.currToken.value with
      | some b => (.ok (some (.bool b)), p)
      | none => (.error { message := bytes "Expected a boolean", pos := p.getPos }, p)
    | .NULL =>
      if p.currToken.value ≠ nullByte then
        (.error { message := bytes "Expected a null value", pos := p.getPos }, p)
      else (.ok none, p)
    | .SPACE => handleSpace fuel p
    | .NEWLINE => (.ok none, p)
    | _ => (.error { message := bytes "Expected value", pos := p.getPos }, p)

/-- handleSpace of parser.go: count the SPACE run, then compare with the
current indentation level: greater opens a nested structure, smaller closes
the block (level := spaceCount, value nil), equal re-dispatches. -/
def handleSpace : Nat → Parser → (Except parseError (Option yamlVal)) × Parser
  | 0, p => (.error fuelError, p)
  | fuel + 1, p =>
    let r := countSpaces (p.lexer.input.length + 2) 0 p
    let spaceCount := r.fst
    let p1 := r.snd
    if spaceCount > p1.currentIndentation then parseIndentedValue fuel p1
    else if spaceCount < p1.currentIndentation then
      (.ok none, { p1 with currentIndentation := spaceCount })
    else parseValue fuel p1

/-- parseIndentedValue of parser.go: bump the level by one and dispatch:
HYPHEN starts a list, STRING or COLON a nested document. -/
def parseIndentedValue : Nat → Parser → (Except parseError (Option yamlVal)) × Parser
  | 0, p => (.error fuelError, p)
  | fuel + 1, p =>
    let p1 := { p with currentIndentation := p.currentIndentation + 1 }
    match p1.currToken.type with
    | .HYPHEN => parseList fuel p1
    | .STRING => parseNestedDoc fuel p1
    | .COLON => parseNestedDoc fuel p1
    | _ =>
      (.error { message := bytes "expected list or map after indentation",
                pos := p1.getPos }, p1)

/-- The `return p.Parse()` of parseIndentedValue: Go's implicit conversion
of the (YAMLObj, error) result to (yamlVal, error). -/
def parseNestedDoc : Nat → Parser → (Except parseError (Option yamlVal)) × Parser
  | 0, p => (.error fuelError, p)
  | fuel + 1, p =>
    match Parse fuel p with
    | (.ok obj, p1) => (.ok (some obj.toVal), p1)
    | (.error e, p1) => (.error e, p1)

/-- parseList of parser.go: while the current token is HYPHEN, skip the
dash, parse one value, append it, advance once, and re-check. -/
def parseList : Nat → Parser → (Except parseError (Option yamlVal)) × Parser
  | 0, p => (.error fuelError, p)
  | fuel + 1, p => parseListLoop fuel p []

/-- The hyphen loop of parseList (the accumulated list is Go's `list`). -/
def parseListLoop : Nat → Parser → List (Option yamlVal) →
    (Except parseError (Option yamlVal)) × Parser
  | 0, p, _ => (.error fuelError, p)
  | fuel + 1, p, list =>
    if p.currToken.type = .HYPHEN then
      let p1 := p.NextToken
      match parseValue fuel p1 with
      | (.error e, p2) => (.error e, p2)
      | (.ok item, p2) => parseListLoop fuel p2.NextToken (list ++ [item])
    else (.ok (some (.arr list)), p)

end

/-- Fuel that dominates every chain of parser steps on the given input:
every constant-depth group of calls consumes at least one byte of input or
terminates the parse. -/
def parseFuel (input : List Nat) : Nat := 8 * input.length + 32

/-- The whole pipeline as main uses it: build the parser over the byte
buffer and run Parse once. -/
def parseInput (input : List Nat) : Except parseError YAMLObj :=
  (Parse (parseFuel input) (NewParser input)).fst

/-- If the quote character never occurs in the input at or after the cursor,
and (when the scan starts at or beyond the end) the byte before the cursor
is not the quote either, then the quoted-string scan loop ends with the
last consumed byte different from the quote, leaving the input unchanged. -/
theorem readQuotedLoopMiss (input : List Nat) (q : Nat) :
    ∀ fuel pos, input.length + 1 ≤ fuel + pos →
      (∀ j, j < input.length → pos ≤ j → input.getD j 0 ≠ q) →
      (input.length ≤ pos → input.getD (pos - 1) 0 ≠ q) →
      (readQuotedLoop fuel q ⟨input, pos⟩).input = input ∧
        input.getD ((readQuotedLoop fuel q ⟨input, pos⟩).pos - 1) 0 ≠ q := by
  intro fuel
  induction fuel with
  | zero =>
    intro pos hfuel h1 h2
    exact ⟨rfl, h2 (by omega)⟩
  | succ fuel ih =>
    intro pos hfuel h1 h2
    by_cases hp : input.length ≤ pos
    · have hnc : Lexer.nextChar ⟨input, pos⟩ = (0, ⟨input, pos⟩) := by
        simp [Lexer.nextChar, hp]
      simp only [readQuotedLoop, hnc]
      simp only [or_true, if_true]
      exact ⟨trivial, h2 hp⟩
    · push_neg at hp
      have hnc : Lexer.nextChar ⟨input, pos⟩ = (input.getD pos 0, ⟨input, pos + 1⟩) := by
        simp [Lexer.nextChar, Nat.not_le.mpr hp]
      have hcq : input.getD pos 0 ≠ q := h1 pos hp (le_refl pos)
      by_cases hc0 : input.getD pos 0 = 0
      · simp only [readQuotedLoop, hnc]
        rw [if_pos (Or.inr hc0)]
        refine ⟨rfl, ?_⟩
        simpa [hc0] using hcq
      · simp only [readQuotedLoop, hnc]
        rw [if_neg (by tauto)]
        exact ih (pos + 1) (by omega) (fun j hj hpj => h1 j hj (by omega))
          (fun hle => by simpa using hcq)

/-- readQuotedString entered at an opening quote that is not the last byte
of the input and has no later occurrence of the same quote character yields
the Invalid token positioned at the opening quote. -/
theorem readQuotedStringUnterminated (input : List Nat) (start : Nat)
    (hlt : start + 1 < input.length)
    (hnone : ∀ j, j < input.length → start < j → input.getD j 0 ≠ input.getD start 0) :
    (Lexer.readQuotedString ⟨input, start + 1⟩).fst =
      { type := .INVALID, pos := (start : Int), value := bytes "unterminated string" } := by
  have hmiss := readQuotedLoopMiss input (input.getD start 0) (input.length + 1) (start + 1)
    (by omega) (fun j hj hpj => hnone j hj (by omega)) (fun hle => absurd hle (by omega))
  simp only [Lexer.readQuotedString, Nat.add_sub_cancel]
  rw [hmiss.1]
  rw [if_pos hmiss.2]

/-- Claim C1: on `parent:\n  child: 1\nsibling: 2\n` the parser does NOT
close the nested block at the dedent: a key returning to column 0 never
produces a SPACE token, so the inner document loop consumes `sibling` as its
own pair and the result nests sibling under parent, with `parent` the only
top-level key.  This evaluation records the divergence from the claim (which
expects sibling at the top level). -/
theorem claim_C1_dedent_not_closed :
    parseInput (bytes "parent:\n  child: 1\nsibling: 2\n") =
      .ok { pairs := [(bytes "parent",
              some (.obj [(bytes "child", some (.int 1)), (bytes "sibling", some (.int 2))]
                [bytes "child", bytes "sibling"]))],
            keys := [bytes "parent"] } := rfl

/-- Claim C2: on `items:\n  - 1\n  - 2\n` the parse FAILS: parseList never
skips to the end of the item line, so after the first item the loop sees the
Newline token (not Hyphen) and returns [1]; back in the document loop the
SPACE of the second item line is not a line end, raising the error at
offset 14.  A single-item list does parse, showing the loop exits after one
item rather than continuing the list as the claim states. -/
theorem claim_C2_list_parse_fails :
    parseInput (bytes "items:\n  - 1\n  - 2\n") =
      .error { message := bytes "Expected new line after parsing values", pos := 14 } ∧
    parseInput (bytes "items:\n  - 1\n") =
      .ok { pairs := [(bytes "items", some (.arr [some (.int 1)]))], keys := [bytes "items"] } :=
  ⟨rfl, rfl⟩

/-- Claim C3 (counterexample): parsing `name: "Alice"\n` yields the string
WITH its surrounding quotes (the token keeps them and parseValue never
strips them), not the quote-stripped `Alice` the claim states. -/
theorem claim_C3_counterexample :
    parseInput (bytes "name: \"Alice\"\n") =
      .ok { pairs := [(bytes "name", some (.str (bytes "\"Alice\"")))], keys := [bytes "name"] } ∧
    bytes "\"Alice\"" ≠ bytes "Alice" := ⟨rfl, by decide⟩

/-- Claim C3 (amended): single-level documents `key: value\n` parse to the
one-entry document with the parsed value, except that a quoted string keeps
its surrounding quotes: `name: "Alice"` gives the 7-byte string including
both quote characters; `age: 30` the integer 30; `active: true` the boolean
true; `note: null` Go's nil value. -/
theorem claim_C3_scalars :
    parseInput (bytes "name: \"Alice\"\n") =
      .ok { pairs := [(bytes "name", some (.str (bytes "\"Alice\"")))], keys := [bytes "name"] } ∧
    parseInput (bytes "age: 30\n") =
      .ok { pairs := [(bytes "age", some (.int 30))], keys := [bytes "age"] } ∧
    parseInput (bytes "active: true\n") =
      .ok { pairs := [(bytes "active", some (.bool true))], keys := [bytes "active"] } ∧
    parseInput (bytes "note: null\n") =
      .ok { pairs := [(bytes "note", none)], keys := [bytes "note"] } :=
  ⟨rfl, rfl, rfl, rfl⟩

/-- Claim C4: appending a pair whose key is already in the document's key
set fails with the duplicate-key error and produces no updated document
(check and update are one atomic step in append); in particular both
duplicate-key inputs fail with the duplicate key message, for an integer
second value and for boolean/null values alike. -/
theorem claim_C4_duplicate_keys :
    (∀ (o : YAMLObj) (key : List Nat) (value : Option yamlVal),
        key ∈ o.keys → o.append key value = .error (dupKeyMsg key)) ∧
      parseInput (bytes "a: 1\na: 2\n") =
        .error { message := dupKeyMsg (bytes "a"), pos := 8 } ∧
      parseInput (bytes "a: true\na: null\n") =
        .error { message := dupKeyMsg (bytes "a"), pos := 11 } :=
  ⟨fun o key value h => by simp [YAMLObj.append, h], rfl, rfl⟩

/-- Claim C4 witness: the general append clause applied to a concrete
document already containing the key. -/
theorem claim_C4_witness :
    YAMLObj.append { pairs := [(bytes "a", none)], keys := [bytes "a"] } (bytes "a") none =
      .error (dupKeyMsg (bytes "a")) :=
  claim_C4_duplicate_keys.1 { pairs := [(bytes "a", none)], keys := [bytes "a"] } (bytes "a")
    none (by decide)

/-- Claim C5: a comment makes the parse FAIL, it is not skipped: the parser
has no Comment case, so a full-line comment fails the key check at offset 0
and an inline comment fails the line-end check; only the lexer-level half of
the claim holds (the Comment token carries no text). -/
theorem claim_C5_comment_rejected :
    parseInput (bytes "# c\na: 1\n") =
      .error { message := bytes "Expected string for key", pos := 0 } ∧
    parseInput (bytes "a: 1 # hi\n") =
      .error { message := bytes "Expected new line after parsing values", pos := 5 } ∧
    (Lexer.readComment ⟨bytes "# c\na: 1\n", 1⟩).fst.value = [] :=
  ⟨rfl, rfl, rfl⟩

/-- Claim C6: the unquoted-string token is NOT trimmed of trailing
whitespace: tokenizing `ab \n` yields the three-byte text `ab ` including
the trailing space, because the trim loop's condition is inverted and never
iterates. -/
theorem claim_C6_trailing_space_kept :
    (Lexer.NextToken ⟨bytes "ab \n", 0⟩).fst =
      { type := .STRING, pos := 0, value := bytes "ab " } ∧
    bytes "ab " ≠ bytes "ab" := ⟨rfl, by decide⟩

/-- Claim C7 (amended): if the opening quote has no matching closing quote
before end-of-input AND at least one byte follows it, the tokenizer yields
the Invalid token positioned at the opening quote, and the concrete parse of
`key: "oops\n` fails at offset 5, the opening quote's offset.  (When the
opening quote is the very last byte, the scan consumes nothing and the
termination check compares the quote with itself, yielding a String token —
see the counterexample.) -/
theorem claim_C7_unterminated :
    (∀ (input : List Nat) (start : Nat),
        (input.getD start 0 = 34 ∨ input.getD start 0 = 39) →
        start + 1 < input.length →
        (∀ j, j < input.length → start < j → input.getD j 0 ≠ input.getD start 0) →
        (Lexer.readQuotedString ⟨input, start + 1⟩).fst =
          { type := .INVALID, pos := (start : Int), value := bytes "unterminated string" }) ∧
      parseInput (bytes "key: \"oops\n") =
        .error { message := bytes "Expected value", pos := 5 } :=
  ⟨fun input start _ hlt hnone => readQuotedStringUnterminated input start hlt hnone, rfl⟩

/-- Claim C7 witness: the general clause applied to the concrete input
`key: "oops\n` with the opening quote at offset 5. -/
theorem claim_C7_witness :
    (Lexer.readQuotedString ⟨bytes "key: \"oops\n", 6⟩).fst =
      { type := .INVALID, pos := (5 : Int), value := bytes "unterminated string" } :=
  claim_C7_unterminated.1 (bytes "key: \"oops\n") 5 (by decide) (by decide) (by decide)

/-- Claim C7 (counterexample): `key: "` has an opening quote (offset 5)
with no closing quote before end-of-input, yet the token produced there is
a String (the one-byte string consisting of the quote itself) and the whole
parse SUCCEEDS, contradicting the claim as stated. -/
theorem claim_C7_counterexample :
    parseInput (bytes "key: \"") =
      .ok { pairs := [(bytes "key", some (.str [34]))], keys := [bytes "key"] } ∧
    (Lexer.NextToken ⟨bytes "key: \"", 5⟩).fst.type = .STRING :=
  ⟨rfl, rfl⟩

/-- Claim C8: the empty input's first token is EndOfInput and Parse fails
with the empty-file error (at offset -1, the position the code computes for
it); the error return carries no document entries. -/
theorem claim_C8_empty_input :
    (NewParser []).currToken.type = .EOF ∧
      parseInput [] = .error { message := bytes "empty files are not valid yaml", pos := -1 } :=
  ⟨rfl, rfl⟩

/-- Claim C9 (amended): NextToken is total by construction and reports
lexical errors as Invalid tokens; EndOfInput is sticky exactly when the
cursor has reached the end of the buffer: there NextToken returns EndOfInput
and leaves the lexer unchanged, so every later call returns EndOfInput too.
(An EndOfInput produced by a 0x00 byte inside the buffer advances the
cursor and is not sticky — see the counterexample.) -/
theorem claim_C9_eof_sticky_at_end (l : Lexer) (h : l.input.length ≤ l.pos) :
    Lexer.NextToken l = ({ type := .EOF, pos := (l.pos : Int) - 1 }, l) := by
  have hnc : Lexer.nextChar l = (0, l) := by
    simp [Lexer.nextChar, h]
  simp [Lexer.NextToken, hnc]

/-- Claim C9 witness: the sticky-EndOfInput theorem at a concrete exhausted
lexer. -/
theorem claim_C9_witness :
    Lexer.NextToken ⟨bytes "a", 1⟩ =
      ({ type := .EOF, pos := ((1 : Nat) : Int) - 1 }, ⟨bytes "a", 1⟩) :=
  claim_C9_eof_sticky_at_end ⟨bytes "a", 1⟩ (by decide)

/-- Claim C9 (counterexample): on the buffer 0x00 `a`, the first NextToken
call returns EndOfInput, but the next call returns a String token, so a call
after an EndOfInput does not always return EndOfInput. -/
theorem claim_C9_counterexample :
    (Lexer.NextToken ⟨[0, 97], 0⟩).fst.type = .EOF ∧
    (Lexer.NextToken (Lexer.NextToken ⟨[0, 97], 0⟩).snd).fst =
      { type := .STRING, pos := 1, value := [97] } ∧
    tokenType.STRING ≠ tokenType.EOF :=
  ⟨rfl, rfl, by decide⟩

/-- Claim C10 (amended): dispatching on a 0x00 byte inside the buffer
returns EndOfInput with the cursor advanced past the NUL; the resulting
EndOfInput is not sticky, but when the NUL follows a pair's terminating
newline (as in `a: 1\n` NUL `b: 2\n`) the document loop stops at that
EndOfInput, so the parse succeeds with only the pairs before the NUL. -/
theorem claim_C10_nul_eof :
    (∀ (l : Lexer), l.pos < l.input.length → l.input.getD l.pos 0 = 0 →
        Lexer.NextToken l =
          ({ type := .EOF, pos := (l.pos : Int) }, { l with pos := l.pos + 1 })) ∧
      parseInput (bytes "a: 1\n\x00b: 2\n") =
        .ok { pairs := [(bytes "a", some (.int 1))], keys := [bytes "a"] } := by
  constructor
  · intro l hlt h0
    have hnc : Lexer.nextChar l = (0, { l with pos := l.pos + 1 }) := by
      simp only [Lexer.nextChar]
      rw [if_neg (by omega), h0]
    simp [Lexer.NextToken, hnc]
  · rfl

/-- Claim C10 witness: the NUL-dispatch clause at the one-byte buffer 0x00. -/
theorem claim_C10_witness :
    Lexer.NextToken ⟨[0], 0⟩ = ({ type := .EOF, pos := ((0 : Nat) : Int) }, ⟨[0], 1⟩) :=
  claim_C10_nul_eof.1 ⟨[0], 0⟩ (by decide) (by decide)

/-- Claim C10 (counterexample): with no newline before the NUL
(`a: 1` 0x00 `b: 2\n`), the document loop consumes the NUL's EndOfInput as
a line end and keeps tokenizing, so the pair b: 2 from AFTER the NUL appears
in the result, contradicting the claim that no byte after the NUL is ever
tokenized and only earlier pairs are returned. -/
theorem claim_C10_counterexample :
    parseInput (bytes "a: 1\x00b: 2\n") =
      .ok { pairs := [(bytes "a", some (.int 1)), (bytes "b", some (.int 2))],
            keys := [bytes "a", bytes "b"] } ∧
    bytes "a: 1\x00b: 2\n" = bytes "a: 1" ++ [0] ++ bytes "b: 2\n" :=
  ⟨rfl, by decide⟩
